import Mathlib

/-!
Shallow embedding of the FinX personal-finance accounting engine from
`src/main.py` (the refined variant of the two sources; `src/main_v1.py`
agrees on the parts shared by the claims below).

Modelling decisions:
* Monetary amounts are exact rationals `ℚ`; Python floats carry the
  same field arithmetic and every claim is stated "within rounding
  tolerance", which the exact model subsumes.
* The SQLite tables become lists of structures inside a `Ledger`
  state; `accounts` is kept in `created_at DESC` order (the order
  `list_accounts` returns), so consing a new account onto the front
  models insertion with a strictly increasing `created_at` column.
* The exchange-rate HTTP endpoint becomes a deterministic partial
  function `Remote` (`none` models any network/parse failure); the
  in-memory rate cache is an explicit association list threaded
  through every operation, exactly as `CurrencyService.cache` is
  mutated in the source.
* Dates are `(year, month, day)` triples compared lexicographically,
  which coincides with the ISO-8601 string comparison SQLite applies
  to the zero-padded `date >= start` filters of `period_summary`.
-/

/-- Rate cache of `CurrencyService`: an association list keyed by the
ordered currency pair, modelling the Python dict `self.cache`. -/
abbrev Cache := List ((String × String) × ℚ)

/-- The remote exchange-rate lookup of `CurrencyService.fetch_rate`
(src/main.py:144-150): `none` models any failure (timeout, non-200
status, malformed payload), `some r` a successful fetch of rate `r`. -/
abbrev Remote := String → String → Option ℚ

/-- SUPPORTED_CURRENCIES (src/main.py:24). -/
def SUPPORTED_CURRENCIES : List String := ["BDT", "USD"]

/-- ACCOUNT_TYPES (src/main.py:25). -/
def ACCOUNT_TYPES : List String := ["fixed", "liquid"]

/-- Static fallback table of `CurrencyService.__init__`
(src/main.py:123-126): USD→BDT at 120 and BDT→USD at 1/120. -/
def fallback_rate : Cache := [(("USD", "BDT"), 120), (("BDT", "USD"), 1/120)]

/-- First-match association-list lookup, modelling Python dict access
keyed by the ordered currency pair. -/
def lookupRate : Cache → String × String → Option ℚ
  | [], _ => none
  | (k, r) :: rest, key => if k = key then some r else lookupRate rest key

/-- CurrencyService.fetch_rate (src/main.py:137-153): returns 1 when
`base = target`; otherwise serves a cache hit; otherwise tries the
remote lookup, caching a successful result; on failure falls back to
the static table with default 1.  Returns the rate together with the
(possibly extended) cache. -/
def fetch_rate (remote : Remote) (cache : Cache) (base target : String) : ℚ × Cache :=
  if base = target then (1, cache)
  else
    match lookupRate cache (base, target) with
    | some r => (r, cache)
    | none =>
      match remote base target with
      | some r => (r, ((base, target), r) :: cache)
      | none => ((lookupRate fallback_rate (base, target)).getD 1, cache)

/-- CurrencyService.convert (src/main.py:155-156):
`amount * fetch_rate(base, target)`. -/
def convert (remote : Remote) (cache : Cache) (amount : ℚ) (base target : String) : ℚ × Cache :=
  let rc := fetch_rate remote cache base target
  (amount * rc.1, rc.2)

/-- A remote lookup that is unavailable: every request fails. -/
def remote_down : Remote := fun _ _ => none

/-- Claim C8.  For every currency code `c` and every cache and network
state, `fetch_rate` on the pair `(c, c)` returns exactly 1. -/
theorem fetch_rate_same_currency (remote : Remote) (cache : Cache) (c : String) :
    (fetch_rate remote cache c c).1 = 1 := by
  simp [fetch_rate]

/-- Claim C7.  For every currency pair `(a, b)` present in the static
fallback table, when the remote lookup is unavailable and the cache is
empty (so the fallback table is used for both directions),
`rate(a, b) * rate(b, a) = 1` holds exactly. -/
theorem fallback_rate_roundtrip (a b : String)
    (h : (a, b) ∈ fallback_rate.map Prod.fst) :
    (fetch_rate remote_down [] a b).1 * (fetch_rate remote_down [] b a).1 = 1 := by
  have h' : (a, b) = ("USD", "BDT") ∨ (a, b) = ("BDT", "USD") := by
    simpa [fallback_rate] using h
  rcases h' with h' | h' <;>
    · obtain ⟨rfl, rfl⟩ := Prod.mk.injEq .. ▸ h'
      norm_num [fetch_rate, lookupRate, remote_down, fallback_rate,
        show ("USD" : String) ≠ "BDT" by decide, show ("BDT" : String) ≠ "USD" by decide]

/-- Witness for C7: the pair (USD, BDT) is in the fallback table and the
round-trip product of the two fallback rates is exactly 1. -/
theorem fallback_rate_roundtrip_witness :
    ("USD", "BDT") ∈ fallback_rate.map Prod.fst ∧
      (fetch_rate remote_down [] "USD" "BDT").1 *
        (fetch_rate remote_down [] "BDT" "USD").1 = 1 :=
  ⟨by decide, fallback_rate_roundtrip "USD" "BDT" (by decide)⟩

/-- Calendar date, modelling `datetime.date`: the `date >= start`
SQL filters compare ISO-8601 strings, which for zero-padded dates is
the lexicographic order on (year, month, day). -/
structure Date where
  year : Nat
  month : Nat
  day : Nat
deriving DecidableEq

/-- Lexicographic `a ≤ b` on dates, the order of the ISO string
comparison `date >= start` in `period_summary` (src/main.py:277). -/
def Date.leB (a b : Date) : Bool :=
  if a.year < b.year then true
  else if b.year < a.year then false
  else if a.month < b.month then true
  else if b.month < a.month then false
  else a.day ≤ b.day

/-- Lexicographic strict order `a < b` on dates. -/
def Date.ltB (a b : Date) : Bool :=
  if a.year < b.year then true
  else if b.year < a.year then false
  else if a.month < b.month then true
  else if b.month < a.month then false
  else a.day < b.day

/-- Date trichotomy: `a` is strictly before `b` exactly when `b` is not
on-or-before `a`. -/
theorem Date.ltB_eq_not_leB (a b : Date) : Date.ltB a b = !Date.leB b a := by
  rcases a with ⟨ay, am, ad⟩
  rcases b with ⟨by_, bm, bd⟩
  simp only [Date.ltB, Date.leB]
  split_ifs <;>
    first
      | rfl
      | (exfalso; omega)
      | (simp only [Bool.not_true, Bool.not_false, ← decide_not, decide_eq_decide,
          decide_eq_true_eq, decide_eq_false_iff_not]
         omega)

/-- Row of the `accounts` table (src/main.py:39-46). -/
structure Account where
  id : Nat
  name : String
  currency : String
  balance : ℚ
  type : String
  created_at : Nat
deriving DecidableEq

/-- Row of the `expenses` table (src/main.py:53-65). -/
structure Expense where
  name : String
  amount : ℚ
  currency : String
  account_id : Nat
  category_id : Option Nat
  is_upcoming : Bool
  date : Date
  created_at : Nat
deriving DecidableEq

/-- Row of the `incomes` table (src/main.py:66-75). -/
structure Income where
  source : String
  description : String
  amount : ℚ
  currency : String
  is_upcoming : Bool
  expected_date : Date
  created_at : Nat
deriving DecidableEq

/-- The durable store consumed by `FinanceService`: the three tables
relevant to the claims plus the `display_currency` setting (always
seeded, src/main.py:102-104) and the next AUTOINCREMENT account id.
`accounts` is held in `created_at DESC` order, the order returned by
`list_accounts`. -/
structure Ledger where
  accounts : List Account
  expenses : List Expense
  incomes : List Income
  display_currency : String
  next_account_id : Nat
deriving DecidableEq

/-- FinanceService.list_accounts (src/main.py:175-176):
`SELECT * FROM accounts ORDER BY created_at DESC`, which is the order
`Ledger.accounts` maintains. -/
def list_accounts (s : Ledger) : List Account := s.accounts

/-- FinanceService.update_balance (src/main.py:178-179):
`UPDATE accounts SET balance=? WHERE id=?`. -/
def update_balance (accounts : List Account) (account_id : Nat) (new_balance : ℚ) :
    List Account :=
  accounts.map (fun a => if a.id = account_id then { a with balance := new_balance } else a)

/-- FinanceService.add_account (src/main.py:164-173) together with the
schema constraints of the `accounts` table (src/main.py:39-46): the
Python code rejects unsupported currencies and account types, and the
`name TEXT NOT NULL UNIQUE` column makes the INSERT of a duplicate name
fail (sqlite3.IntegrityError, propagated to the caller with no row
created). -/
def add_account (s : Ledger) (name currency : String) (balance : ℚ) (type : String)
    (now : Nat) : Except String Ledger :=
  if currency ∉ SUPPORTED_CURRENCIES then Except.error "Unsupported currency"
  else if type ∉ ACCOUNT_TYPES then Except.error "Unsupported account type"
  else if s.accounts.any (fun a => a.name = name) then
    Except.error "UNIQUE constraint failed: accounts.name"
  else
    Except.ok { s with
      accounts := ⟨s.next_account_id, name, currency, balance, type, now⟩ :: s.accounts,
      next_account_id := s.next_account_id + 1 }

/-- FinanceService.add_expense (src/main.py:189-203): always inserts
the expense row; when not upcoming, looks the owning account up by id
(`if acc:` skips silently when absent), converts the amount into the
account currency unless the currencies already match, and writes the
decremented balance back. -/
def add_expense (remote : Remote) (cache : Cache) (s : Ledger)
    (name : String) (amount : ℚ) (currency : String) (account_id : Nat)
    (category_id : Option Nat) (is_upcoming : Bool) (when : Date) (now : Nat) :
    Ledger × Cache :=
  let s1 := { s with
    expenses := ⟨name, amount, currency, account_id, category_id, is_upcoming, when, now⟩
      :: s.expenses }
  if is_upcoming then (s1, cache)
  else
    match s1.accounts.find? (fun a => a.id = account_id) with
    | none => (s1, cache)
    | some acc =>
      let dc : ℚ × Cache :=
        if currency ≠ acc.currency then convert remote cache amount currency acc.currency
        else (amount, cache)
      ({ s1 with accounts := update_balance s1.accounts account_id (acc.balance - dc.1) },
        dc.2)

/-- Target-account policy of FinanceService.add_income
(src/main.py:218-225): the first liquid account in `list_accounts`
order whose currency matches, else the first listed account if any. -/
def income_target (s : Ledger) (currency : String) : Option Account :=
  match (list_accounts s).find? (fun a => a.type = "liquid" && a.currency = currency) with
  | some a => some a
  | none => (list_accounts s).head?

/-- FinanceService.add_income (src/main.py:208-229): always inserts the
income row; when not upcoming, resolves a target account by
`income_target`, converts the amount into its currency unless the
currencies already match, and writes the incremented balance back;
with no account at all nothing further happens. -/
def add_income (remote : Remote) (cache : Cache) (s : Ledger)
    (source description : String) (amount : ℚ) (currency : String)
    (is_upcoming : Bool) (expected_date : Date) (now : Nat) : Ledger × Cache :=
  let s1 := { s with
    incomes := ⟨source, description, amount, currency, is_upcoming, expected_date, now⟩
      :: s.incomes }
  if is_upcoming then (s1, cache)
  else
    match income_target s1 currency with
    | none => (s1, cache)
    | some acc =>
      let cc : ℚ × Cache :=
        if currency ≠ acc.currency then convert remote cache amount currency acc.currency
        else (amount, cache)
      ({ s1 with accounts := update_balance s1.accounts acc.id (acc.balance + cc.1) },
        cc.2)

/-- Updating a balance by account id commutes with looking the account
up by that id: the found row is the old row with the new balance. -/
theorem find?_update_balance (l : List Account) (aid : Nat) (nb : ℚ) :
    (update_balance l aid nb).find? (fun a => a.id = aid) =
      (l.find? (fun a => a.id = aid)).map (fun a => { a with balance := nb }) := by
  induction l with
  | nil => rfl
  | cons a rest ih =>
    by_cases h : a.id = aid
    · simp [update_balance, List.find?_cons, h]
    · simp only [update_balance, List.map_cons] at ih ⊢
      rw [if_neg h]
      rw [List.find?_cons_of_neg, List.find?_cons_of_neg, ih]
      · simpa using h
      · simpa using h

/-- Claim C3.  Adding an upcoming expense or an upcoming income leaves
every account (in particular every balance) untouched, while the
expense/income record itself is still created. -/
theorem upcoming_preserves_balances (remote : Remote) (cache : Cache) (s : Ledger)
    (n : String) (A : ℚ) (cx : String) (aid : Nat) (cid : Option Nat) (d : Date) (t : Nat)
    (src desc : String) (A2 : ℚ) (cy : String) (ed : Date) (t2 : Nat) :
    (add_expense remote cache s n A cx aid cid true d t).1.accounts = s.accounts ∧
    (add_expense remote cache s n A cx aid cid true d t).1.expenses =
      ⟨n, A, cx, aid, cid, true, d, t⟩ :: s.expenses ∧
    (add_income remote cache s src desc A2 cy true ed t2).1.accounts = s.accounts ∧
    (add_income remote cache s src desc A2 cy true ed t2).1.incomes =
      ⟨src, desc, A2, cy, true, ed, t2⟩ :: s.incomes :=
  ⟨rfl, rfl, rfl, rfl⟩

/-- Claim C10.  A non-upcoming expense against an account id that
matches no existing account still inserts the expense record, writes
no account balance, touches no cache entry, and (the operation being a
total function) raises no error. -/
theorem add_expense_unknown_account (remote : Remote) (cache : Cache) (s : Ledger)
    (n : String) (A : ℚ) (cx : String) (aid : Nat) (cid : Option Nat) (d : Date) (t : Nat)
    (h : s.accounts.find? (fun a => a.id = aid) = none) :
    (add_expense remote cache s n A cx aid cid false d t).1.expenses =
      ⟨n, A, cx, aid, cid, false, d, t⟩ :: s.expenses ∧
    (add_expense remote cache s n A cx aid cid false d t).1.accounts = s.accounts ∧
    (add_expense remote cache s n A cx aid cid false d t).2 = cache := by
  simp [add_expense, h]

/-- Witness for C10: on a ledger with a single account of id 1, an
expense against the absent id 5 inserts the record and leaves the
accounts and the cache unchanged. -/
def demoAccount : Account := ⟨1, "Cash", "BDT", 100, "liquid", 0⟩

/-- Demo ledger with one liquid BDT account of balance 100. -/
def demoLedger : Ledger := ⟨[demoAccount], [], [], "BDT", 2⟩

/-- Demo ledger with no accounts at all. -/
def emptyLedger : Ledger := ⟨[], [], [], "BDT", 1⟩

theorem add_expense_unknown_account_witness :
    demoLedger.accounts.find? (fun a => a.id = 5) = none ∧
    ((add_expense remote_down [] demoLedger "tea" 30 "BDT" 5 none false ⟨2026, 10, 12⟩ 1).1.expenses
        = ⟨"tea", 30, "BDT", 5, none, false, ⟨2026, 10, 12⟩, 1⟩ :: demoLedger.expenses ∧
      (add_expense remote_down [] demoLedger "tea" 30 "BDT" 5 none false ⟨2026, 10, 12⟩ 1).1.accounts
        = demoLedger.accounts ∧
      (add_expense remote_down [] demoLedger "tea" 30 "BDT" 5 none false ⟨2026, 10, 12⟩ 1).2 = []) :=
  ⟨by decide,
    add_expense_unknown_account remote_down [] demoLedger "tea" 30 "BDT" 5 none ⟨2026, 10, 12⟩ 1
      (by decide)⟩

/-- Claim C1.  A non-upcoming expense of amount `A` in currency `cx`
against an existing account (first row found under the given id, with
balance `B` and currency `Ca`) creates the expense record and updates
that account's balance to `B - convert(A, cx, Ca)`, with no conversion
applied when `cx = Ca`; in the exact rational model the equality is
exact, which subsumes "within rounding tolerance". -/
theorem add_expense_debits_account (remote : Remote) (cache : Cache) (s : Ledger)
    (n : String) (A : ℚ) (cx : String) (aid : Nat) (cid : Option Nat) (d : Date) (t : Nat)
    (acc : Account) (h : s.accounts.find? (fun a => a.id = aid) = some acc) :
    (add_expense remote cache s n A cx aid cid false d t).1.expenses =
      ⟨n, A, cx, aid, cid, false, d, t⟩ :: s.expenses ∧
    (add_expense remote cache s n A cx aid cid false d t).1.accounts.find?
        (fun a => a.id = aid) =
      some { acc with balance := acc.balance -
        (if cx = acc.currency then A
         else A * (fetch_rate remote cache cx acc.currency).1) } := by
  constructor
  · simp [add_expense, h]
  · by_cases hc : cx = acc.currency
    · simp [add_expense, h, hc, find?_update_balance]
    · simp [add_expense, h, hc, find?_update_balance, convert]

/-- Witness for C1: on the demo ledger (one BDT account of balance 100,
id 1), a 30 BDT expense leaves that account at balance 70. -/
theorem add_expense_debits_account_witness :
    demoLedger.accounts.find? (fun a => a.id = 1) = some demoAccount ∧
    ((add_expense remote_down [] demoLedger "tea" 30 "BDT" 1 none false ⟨2026, 10, 12⟩ 1).1.expenses
        = ⟨"tea", 30, "BDT", 1, none, false, ⟨2026, 10, 12⟩, 1⟩ :: demoLedger.expenses ∧
      (add_expense remote_down [] demoLedger "tea" 30 "BDT" 1 none false ⟨2026, 10, 12⟩ 1).1.accounts.find?
          (fun a => a.id = 1) =
        some { demoAccount with balance := demoAccount.balance -
          (if "BDT" = demoAccount.currency then (30 : ℚ)
           else 30 * (fetch_rate remote_down [] "BDT" demoAccount.currency).1) }) :=
  ⟨by decide,
    add_expense_debits_account remote_down [] demoLedger "tea" 30 "BDT" 1 none ⟨2026, 10, 12⟩ 1
      demoAccount (by decide)⟩

/-- Claim C2.  A non-upcoming income always creates the income record,
credits the account selected by the policy of `income_target` (first
liquid account of matching currency in most-recent-created order, else
the first listed account) with the amount converted into that
account's currency, mutates nothing when no account exists, and (the
operation being a total function) never raises. -/
theorem add_income_targets_account (remote : Remote) (cache : Cache) (s : Ledger)
    (src desc : String) (A : ℚ) (cy : String) (ed : Date) (t : Nat) :
    (add_income remote cache s src desc A cy false ed t).1.incomes =
      ⟨src, desc, A, cy, false, ed, t⟩ :: s.incomes ∧
    (∀ acc : Account, income_target s cy = some acc →
      (add_income remote cache s src desc A cy false ed t).1.accounts =
        update_balance s.accounts acc.id (acc.balance +
          (if cy = acc.currency then A
           else A * (fetch_rate remote cache cy acc.currency).1))) ∧
    (income_target s cy = none →
      (add_income remote cache s src desc A cy false ed t).1.accounts = s.accounts) ∧
    (s.accounts = [] → income_target s cy = none) := by
  refine ⟨?_, ?_, ?_, ?_⟩
  · rcases htgt : income_target
        ({ s with incomes := ⟨src, desc, A, cy, false, ed, t⟩ :: s.incomes } : Ledger) cy
      with _ | acc <;> simp [add_income, htgt]
  · intro acc hacc
    have htgt : income_target
        ({ s with incomes := ⟨src, desc, A, cy, false, ed, t⟩ :: s.incomes } : Ledger) cy
        = some acc := hacc
    by_cases hc : cy = acc.currency
    · subst hc
      simp [add_income, htgt]
    · simp [add_income, htgt, hc, convert]
  · intro hnone
    have htgt : income_target
        ({ s with incomes := ⟨src, desc, A, cy, false, ed, t⟩ :: s.incomes } : Ledger) cy
        = none := hnone
    simp [add_income, htgt]
  · intro hnil
    simp [income_target, list_accounts, hnil]

/-- Witness for C2: on the demo ledger the liquid BDT account is the
target of a 50 BDT income and ends at balance 150; on the empty ledger
no target exists and the accounts stay empty. -/
theorem add_income_targets_account_witness :
    income_target demoLedger "BDT" = some demoAccount ∧
    (add_income remote_down [] demoLedger "job" "" 50 "BDT" false ⟨2026, 10, 12⟩ 1).1.accounts =
      update_balance demoLedger.accounts demoAccount.id (demoAccount.balance +
        (if "BDT" = demoAccount.currency then (50 : ℚ)
         else 50 * (fetch_rate remote_down [] "BDT" demoAccount.currency).1)) ∧
    income_target emptyLedger "BDT" = none ∧
    (add_income remote_down [] emptyLedger "job" "" 50 "BDT" false ⟨2026, 10, 12⟩ 1).1.accounts =
      emptyLedger.accounts :=
  ⟨by decide,
    (add_income_targets_account remote_down [] demoLedger "job" "" 50 "BDT" ⟨2026, 10, 12⟩ 1).2.1
      demoAccount (by decide),
    by decide,
    (add_income_targets_account remote_down [] emptyLedger "job" "" 50 "BDT" ⟨2026, 10, 12⟩ 1).2.2.1
      (by decide)⟩

/-- Claim C4.  `add_account` fails (with the Python ValueError for an
unsupported currency or type, or the database unique-constraint error
for a duplicate name) whenever the currency is outside BDT/USD, the
type is outside fixed/liquid, or the name equals an existing account's
name; otherwise it creates exactly one account row holding the given
opening balance. -/
theorem add_account_validation (s : Ledger) (n cur : String) (bal : ℚ) (ty : String)
    (t : Nat) :
    ((cur ∉ SUPPORTED_CURRENCIES ∨ ty ∉ ACCOUNT_TYPES ∨ ∃ a ∈ s.accounts, a.name = n) →
      ∃ msg, add_account s n cur bal ty t = Except.error msg) ∧
    (cur ∈ SUPPORTED_CURRENCIES → ty ∈ ACCOUNT_TYPES → (∀ a ∈ s.accounts, a.name ≠ n) →
      add_account s n cur bal ty t =
        Except.ok { s with
          accounts := ⟨s.next_account_id, n, cur, bal, ty, t⟩ :: s.accounts,
          next_account_id := s.next_account_id + 1 }) := by
  constructor
  · intro h
    unfold add_account
    by_cases hcur : cur ∈ SUPPORTED_CURRENCIES
    · by_cases hty : ty ∈ ACCOUNT_TYPES
      · have hname : ∃ a ∈ s.accounts, a.name = n := by tauto
        have hany : s.accounts.any (fun a => a.name = n) = true := by
          rw [List.any_eq_true]
          obtain ⟨a, ha, hn⟩ := hname
          exact ⟨a, ha, by simpa using hn⟩
        simp [hcur, hty, hany]
      · simp [hcur, hty]
    · simp [hcur]
  · intro hcur hty hname
    have hany : s.accounts.any (fun a => a.name = n) = false := by
      rw [List.any_eq_false]
      intro a ha
      simpa using hname a ha
    simp [add_account, hcur, hty, hany]

/-- Witness for C4: on the demo ledger, currency EUR is rejected, and a
fresh liquid USD account named Savings is created as the single new
row with its opening balance of 5. -/
theorem add_account_validation_witness :
    (("EUR" ∉ SUPPORTED_CURRENCIES ∨ "liquid" ∉ ACCOUNT_TYPES ∨
        ∃ a ∈ demoLedger.accounts, a.name = "Savings") ∧
      ∃ msg, add_account demoLedger "Savings" "EUR" 5 "liquid" 7 = Except.error msg) ∧
    (("USD" ∈ SUPPORTED_CURRENCIES ∧ "liquid" ∈ ACCOUNT_TYPES ∧
        ∀ a ∈ demoLedger.accounts, a.name ≠ "Savings") ∧
      add_account demoLedger "Savings" "USD" 5 "liquid" 7 =
        Except.ok { demoLedger with
          accounts := ⟨demoLedger.next_account_id, "Savings", "USD", 5, "liquid", 7⟩
            :: demoLedger.accounts,
          next_account_id := demoLedger.next_account_id + 1 }) :=
  ⟨⟨Or.inl (by decide),
    (add_account_validation demoLedger "Savings" "EUR" 5 "liquid" 7).1 (Or.inl (by decide))⟩,
   ⟨⟨by decide, by decide, by decide⟩,
    (add_account_validation demoLedger "Savings" "USD" 5 "liquid" 7).2
      (by decide) (by decide) (by decide)⟩⟩

/-- Two-decimal rounding used on every displayed aggregate
(`round(x, 2)` in src/main.py); the exact tie-breaking rule of the
Python builtin is irrelevant to the claims, which apply the same
rounding on both sides. -/
def round2 (q : ℚ) : ℚ := ((q * 100 + 1/2).floor : ℚ) / 100

/-- Conversion-and-summation loop shared by the aggregate queries
(`sum(self.fx.convert(...) for ...)` in src/main.py:256-257, 279-280),
threading the rate cache left to right over (amount, currency) pairs. -/
def sumConvert (remote : Remote) (display : String) :
    List (ℚ × String) → Cache → ℚ × Cache
  | [], cache => (0, cache)
  | p :: rest, cache =>
    let vc := convert remote cache p.1 p.2 display
    let sc := sumConvert remote display rest vc.2
    (vc.1 + sc.1, sc.2)

/-- Result row of FinanceService.totals (src/main.py:245-250). -/
structure Totals where
  display_currency : String
  total_fixed : ℚ
  total_liquid : ℚ
  total_all : ℚ
deriving DecidableEq

/-- Account loop of FinanceService.totals (src/main.py:239-244):
converts each balance into the display currency (skipping conversion
when the account already uses it) and accumulates by account type,
threading the rate cache. -/
def totalsLoop (remote : Remote) (display : String) :
    List Account → Cache → (ℚ × ℚ) × Cache
  | [], cache => ((0, 0), cache)
  | a :: rest, cache =>
    let vc : ℚ × Cache :=
      if a.currency = display then (a.balance, cache)
      else convert remote cache a.balance a.currency display
    let tc := totalsLoop remote display rest vc.2
    (if a.type = "fixed" then (vc.1 + tc.1.1, tc.1.2) else (tc.1.1, vc.1 + tc.1.2), tc.2)

/-- FinanceService.totals (src/main.py:234-250). -/
def totals (remote : Remote) (cache : Cache) (s : Ledger) : Totals × Cache :=
  let tc := totalsLoop remote s.display_currency s.accounts cache
  ({ display_currency := s.display_currency,
     total_fixed := round2 tc.1.1,
     total_liquid := round2 tc.1.2,
     total_all := round2 (tc.1.1 + tc.1.2) }, tc.2)

/-- The (amount, currency) pairs of all upcoming expenses, the rows of
`SELECT amount, currency FROM expenses WHERE is_upcoming=1`. -/
def upcoming_expense_pairs (s : Ledger) : List (ℚ × String) :=
  (s.expenses.filter (fun e => e.is_upcoming)).map (fun e => (e.amount, e.currency))

/-- The (amount, currency) pairs of all upcoming incomes, the rows of
`SELECT amount, currency FROM incomes WHERE is_upcoming=1`. -/
def upcoming_income_pairs (s : Ledger) : List (ℚ × String) :=
  (s.incomes.filter (fun i => i.is_upcoming)).map (fun i => (i.amount, i.currency))

/-- Result row of FinanceService.upcoming_totals (src/main.py:258-263). -/
structure UpcomingTotals where
  display_currency : String
  upcoming_expenses : ℚ
  upcoming_incomes : ℚ
  projected_total : ℚ
deriving DecidableEq

/-- FinanceService.upcoming_totals (src/main.py:252-263): sums upcoming
expenses and incomes in display currency, then calls `totals()` afresh
and combines `total_all - up_exp + up_inc`. -/
def upcoming_totals (remote : Remote) (cache : Cache) (s : Ledger) :
    UpcomingTotals × Cache :=
  let d := s.display_currency
  let ue := sumConvert remote d (upcoming_expense_pairs s) cache
  let ui := sumConvert remote d (upcoming_income_pairs s) ue.2
  let tc := totals remote ui.2 s
  ({ display_currency := d,
     upcoming_expenses := round2 ue.1,
     upcoming_incomes := round2 ui.1,
     projected_total := round2 (tc.1.total_all - ue.1 + ui.1) }, tc.2)

/-- Result row of FinanceService.period_summary (src/main.py:281-287). -/
structure PeriodSummary where
  display_currency : String
  period : String
  expenses : ℚ
  income : ℚ
  net : ℚ
deriving DecidableEq

/-- The expenses returned by `SELECT ... FROM expenses WHERE date>=?`
(src/main.py:277): ISO string comparison on zero-padded dates, i.e.
the lexicographic date order. -/
def expenses_since (s : Ledger) (start : Date) : List Expense :=
  s.expenses.filter (fun e => Date.leB start e.date)

/-- The incomes returned by `SELECT ... FROM incomes WHERE expected_date>=?`
(src/main.py:278). -/
def incomes_since (s : Ledger) (start : Date) : List Income :=
  s.incomes.filter (fun i => Date.leB start i.expected_date)

/-- Body of FinanceService.period_summary after the start date has been
resolved (src/main.py:277-287). -/
def period_summary_from (remote : Remote) (cache : Cache) (s : Ledger)
    (period : String) (start : Date) : Except String PeriodSummary × Cache :=
  let d := s.display_currency
  let te := sumConvert remote d
    ((expenses_since s start).map (fun e => (e.amount, e.currency))) cache
  let ti := sumConvert remote d
    ((incomes_since s start).map (fun i => (i.amount, i.currency))) te.2
  (Except.ok { display_currency := d, period := period, expenses := round2 te.1,
               income := round2 ti.1, net := round2 (ti.1 - te.1) }, ti.2)

/-- First day of the month containing `today`
(`date(today.year, today.month, 1)`, src/main.py:273). -/
def monthStart (today : Date) : Date := ⟨today.year, today.month, 1⟩

/-- FinanceService.period_summary (src/main.py:265-287): resolves the
period start date (`daily` = today, `weekly` = the Monday of the ISO
week containing today — supplied here as the external calendar input
`weekMonday` — and `monthly` = the first of the current month) and
raises ValueError on any other period string, before touching any
query or the rate cache. -/
def period_summary (remote : Remote) (cache : Cache) (s : Ledger) (period : String)
    (today weekMonday : Date) : Except String PeriodSummary × Cache :=
  if period = "daily" then period_summary_from remote cache s period today
  else if period = "weekly" then period_summary_from remote cache s period weekMonday
  else if period = "monthly" then period_summary_from remote cache s period (monthStart today)
  else (Except.error "period must be daily/weekly/monthly", cache)

/-- A cache `c` is coherent over a base cache `c₀` when every key is
either bound exactly as in `c₀` or was absent from `c₀` and is bound to
the remote rate — the only way `fetch_rate` ever extends a cache. -/
def Coherent (remote : Remote) (c₀ c : Cache) : Prop :=
  ∀ k : String × String, lookupRate c k = lookupRate c₀ k ∨
    (lookupRate c₀ k = none ∧ lookupRate c k = remote k.1 k.2)

/-- Every cache is coherent over itself. -/
theorem coherent_refl (remote : Remote) (c : Cache) : Coherent remote c c :=
  fun _ => Or.inl rfl

/-- The rate `fetch_rate` returns is unchanged by replacing the cache
with any cache coherent over it: cached entries written by earlier
fetches always agree with what a fresh fetch would return. -/
theorem fetch_rate_val_coherent (remote : Remote) (c₀ c : Cache) (b t : String)
    (h : Coherent remote c₀ c) :
    (fetch_rate remote c b t).1 = (fetch_rate remote c₀ b t).1 := by
  unfold fetch_rate
  by_cases hbt : b = t
  · simp [hbt]
  · simp only [hbt, if_false]
    rcases h (b, t) with heq | ⟨h0, hr⟩
    · rw [heq]
      cases hl : lookupRate c₀ (b, t) with
      | some r => simp [hl]
      | none => cases hrem : remote b t <;> simp [hl, hrem]
    · rw [h0, hr]
      cases hrem : remote b t <;> simp [hrem]

/-- A fetch keeps the evolved cache coherent over the base cache. -/
theorem fetch_rate_cache_coherent (remote : Remote) (c₀ c : Cache) (b t : String)
    (h : Coherent remote c₀ c) :
    Coherent remote c₀ (fetch_rate remote c b t).2 := by
  unfold fetch_rate
  by_cases hbt : b = t
  · simp only [hbt, if_true]
    exact h
  · simp only [hbt, if_false]
    cases hl : lookupRate c (b, t) with
    | some r => exact h
    | none =>
      cases hrem : remote b t with
      | none => exact h
      | some r =>
        intro k
        by_cases hk : (b, t) = k
        · subst hk
          right
          constructor
          · rcases h (b, t) with heq | ⟨h0, _⟩
            · rw [← heq]; exact hl
            · exact h0
          · simp [lookupRate, hrem]
        · have hstep : lookupRate (((b, t), r) :: c) k = lookupRate c k := by
            simp [lookupRate, hk]
          rw [hstep]
          exact h k

/-- Converting and summing a list of (amount, currency) pairs yields
the same total over any coherent cache, and keeps the evolved cache
coherent. -/
theorem sumConvert_coherent (remote : Remote) (c₀ : Cache) (d : String) :
    ∀ (l : List (ℚ × String)) (c : Cache), Coherent remote c₀ c →
      (sumConvert remote d l c).1 = (sumConvert remote d l c₀).1 ∧
      Coherent remote c₀ (sumConvert remote d l c).2 := by
  intro l
  induction l with
  | nil => exact fun c h => ⟨rfl, h⟩
  | cons p rest ih =>
    intro c h
    have hval : (fetch_rate remote c p.2 d).1 = (fetch_rate remote c₀ p.2 d).1 :=
      fetch_rate_val_coherent remote c₀ c p.2 d h
    have hc1 : Coherent remote c₀ (fetch_rate remote c p.2 d).2 :=
      fetch_rate_cache_coherent remote c₀ c p.2 d h
    have hc0 : Coherent remote c₀ (fetch_rate remote c₀ p.2 d).2 :=
      fetch_rate_cache_coherent remote c₀ c₀ p.2 d (coherent_refl remote c₀)
    have t1 := ih (fetch_rate remote c p.2 d).2 hc1
    have t0 := ih (fetch_rate remote c₀ p.2 d).2 hc0
    constructor
    · simp only [sumConvert, convert]
      rw [hval, t1.1, t0.1]
    · simp only [sumConvert, convert]
      exact t1.2

/-- The per-type totals loop yields the same pair of sums over any
coherent cache, and keeps the evolved cache coherent. -/
theorem totalsLoop_coherent (remote : Remote) (c₀ : Cache) (d : String) :
    ∀ (l : List Account) (c : Cache), Coherent remote c₀ c →
      (totalsLoop remote d l c).1 = (totalsLoop remote d l c₀).1 ∧
      Coherent remote c₀ (totalsLoop remote d l c).2 := by
  intro l
  induction l with
  | nil => exact fun c h => ⟨rfl, h⟩
  | cons a rest ih =>
    intro c h
    by_cases hcur : a.currency = d
    · have t := ih c h
      constructor
      · simp only [totalsLoop, convert, hcur, if_true]
        rw [t.1]
      · simp only [totalsLoop, convert, hcur, if_true]
        exact t.2
    · have hval : (fetch_rate remote c a.currency d).1 =
          (fetch_rate remote c₀ a.currency d).1 :=
        fetch_rate_val_coherent remote c₀ c a.currency d h
      have hc1 : Coherent remote c₀ (fetch_rate remote c a.currency d).2 :=
        fetch_rate_cache_coherent remote c₀ c a.currency d h
      have hc0 : Coherent remote c₀ (fetch_rate remote c₀ a.currency d).2 :=
        fetch_rate_cache_coherent remote c₀ c₀ a.currency d (coherent_refl remote c₀)
      have t1 := ih (fetch_rate remote c a.currency d).2 hc1
      have t0 := ih (fetch_rate remote c₀ a.currency d).2 hc0
      constructor
      · simp only [totalsLoop, convert, hcur, if_false]
        rw [hval, t1.1, t0.1]
      · simp only [totalsLoop, convert, hcur, if_false]
        exact t1.2

/-- The totals row is the same over any coherent cache. -/
theorem totals_val_coherent (remote : Remote) (c₀ c : Cache) (s : Ledger)
    (h : Coherent remote c₀ c) :
    (totals remote c s).1 = (totals remote c₀ s).1 := by
  have t := totalsLoop_coherent remote c₀ s.display_currency s.accounts c h
  simp only [totals]
  rw [t.1]

/-- Claim C5.  For every store state, the projected total reported by
`upcoming_totals` equals `totals()`'s `total_all` minus the sum of all
upcoming expenses plus the sum of all upcoming incomes (each converted
to the display currency), rounded to two decimals — with `total_all`
and both sums computed afresh from the current state and the original
cache, i.e. not from any frozen snapshot. -/
theorem upcoming_totals_projection (remote : Remote) (cache : Cache) (s : Ledger) :
    (upcoming_totals remote cache s).1.projected_total =
      round2 ((totals remote cache s).1.total_all
        - (sumConvert remote s.display_currency (upcoming_expense_pairs s) cache).1
        + (sumConvert remote s.display_currency (upcoming_income_pairs s) cache).1) := by
  have h1 := sumConvert_coherent remote cache s.display_currency
    (upcoming_expense_pairs s) cache (coherent_refl remote cache)
  have h2 := sumConvert_coherent remote cache s.display_currency
    (upcoming_income_pairs s)
    (sumConvert remote s.display_currency (upcoming_expense_pairs s) cache).2 h1.2
  have h3 := totals_val_coherent remote cache
    (sumConvert remote s.display_currency (upcoming_income_pairs s)
      (sumConvert remote s.display_currency (upcoming_expense_pairs s) cache).2).2 s h2.2
  simp only [upcoming_totals]
  rw [h2.1, h3]

/-- Claim C6.  `period_summary("monthly")` sums exactly the expenses of
`expenses_since` from the first day of the current month: its reported
expense total is the converted sum over that window, every expense
dated strictly before the first of the month is excluded from the
window, and every expense dated on or after it is included. -/
theorem period_summary_monthly_window (remote : Remote) (cache : Cache) (s : Ledger)
    (today weekMonday : Date) (e : Expense) (he : e ∈ s.expenses) :
    (∃ r, (period_summary remote cache s "monthly" today weekMonday).1 = Except.ok r ∧
      r.expenses = round2 (sumConvert remote s.display_currency
        ((expenses_since s (monthStart today)).map (fun x => (x.amount, x.currency)))
        cache).1) ∧
    (Date.ltB e.date (monthStart today) = true →
      e ∉ expenses_since s (monthStart today)) ∧
    (Date.leB (monthStart today) e.date = true →
      e ∈ expenses_since s (monthStart today)) := by
  refine ⟨?_, ?_, ?_⟩
  · have hps : period_summary remote cache s "monthly" today weekMonday =
        period_summary_from remote cache s "monthly" (monthStart today) := by
      simp [period_summary, show ("monthly" : String) ≠ "daily" by decide,
        show ("monthly" : String) ≠ "weekly" by decide]
    rw [hps]
    exact ⟨_, rfl, rfl⟩
  · intro hlt hmem
    rw [Date.ltB_eq_not_leB] at hlt
    have hpred := (List.mem_filter.mp hmem).2
    rw [Bool.not_eq_eq_eq_not] at hlt
    simp only [Bool.not_true] at hlt
    rw [expenses_since] at hmem
    have := (List.mem_filter.mp hmem).2
    rw [this] at hlt
    exact Bool.true_eq_false.mp hlt
  · intro hle
    exact List.mem_filter.mpr ⟨he, hle⟩

/-- Demo expense dated in the previous month. -/
def demoExpenseOld : Expense := ⟨"sep rent", 40, "BDT", 1, none, false, ⟨2026, 9, 30⟩, 2⟩

/-- Demo expense dated inside the current month. -/
def demoExpenseNew : Expense := ⟨"oct rent", 45, "BDT", 1, none, false, ⟨2026, 10, 5⟩, 3⟩

/-- Demo ledger holding both demo expenses. -/
def demoLedger2 : Ledger := ⟨[demoAccount], [demoExpenseOld, demoExpenseNew], [], "BDT", 2⟩

/-- Witness for C6: with today 2026-10-12, the September expense is
strictly before the month start and excluded, the October expense is on
or after it and included, and the monthly summary returns an ok row
whose expense total is the converted sum over the window. -/
theorem period_summary_monthly_window_witness :
    (demoExpenseOld ∈ demoLedger2.expenses ∧
      Date.ltB demoExpenseOld.date (monthStart ⟨2026, 10, 12⟩) = true ∧
      demoExpenseOld ∉ expenses_since demoLedger2 (monthStart ⟨2026, 10, 12⟩)) ∧
    (demoExpenseNew ∈ demoLedger2.expenses ∧
      Date.leB (monthStart ⟨2026, 10, 12⟩) demoExpenseNew.date = true ∧
      demoExpenseNew ∈ expenses_since demoLedger2 (monthStart ⟨2026, 10, 12⟩)) ∧
    (∃ r, (period_summary remote_down [] demoLedger2 "monthly" ⟨2026, 10, 12⟩
        ⟨2026, 10, 12⟩).1 = Except.ok r ∧
      r.expenses = round2 (sumConvert remote_down demoLedger2.display_currency
        ((expenses_since demoLedger2 (monthStart ⟨2026, 10, 12⟩)).map
          (fun x => (x.amount, x.currency))) []).1) :=
  ⟨⟨by decide, by decide,
    (period_summary_monthly_window remote_down [] demoLedger2 ⟨2026, 10, 12⟩ ⟨2026, 10, 12⟩
      demoExpenseOld (by decide)).2.1 (by decide)⟩,
   ⟨by decide, by decide,
    (period_summary_monthly_window remote_down [] demoLedger2 ⟨2026, 10, 12⟩ ⟨2026, 10, 12⟩
      demoExpenseNew (by decide)).2.2 (by decide)⟩,
   (period_summary_monthly_window remote_down [] demoLedger2 ⟨2026, 10, 12⟩ ⟨2026, 10, 12⟩
      demoExpenseOld (by decide)).1⟩

/-- The resolved-period body always returns an ok summary row. -/
theorem period_summary_from_ok (remote : Remote) (cache : Cache) (s : Ledger)
    (period : String) (start : Date) :
    ∃ r, (period_summary_from remote cache s period start).1 = Except.ok r :=
  ⟨_, rfl⟩

/-- Claim C9.  `period_summary` fails with the ValueError message for
every period string other than daily, weekly and monthly — raised
before any query runs, so the rate cache (the only state the operation
can touch; it returns no modified ledger at all) is unchanged — and
returns an ok summary row for each of those three values. -/
theorem period_summary_period_validation (remote : Remote) (cache : Cache) (s : Ledger)
    (today weekMonday : Date) (period : String) :
    (period ∉ (["daily", "weekly", "monthly"] : List String) →
      (period_summary remote cache s period today weekMonday).1 =
        Except.error "period must be daily/weekly/monthly" ∧
      (period_summary remote cache s period today weekMonday).2 = cache) ∧
    (period ∈ (["daily", "weekly", "monthly"] : List String) →
      ∃ r, (period_summary remote cache s period today weekMonday).1 = Except.ok r) := by
  constructor
  · intro hnot
    have h1 : period ≠ "daily" := fun h => hnot (by simp [h])
    have h2 : period ≠ "weekly" := fun h => hnot (by simp [h])
    have h3 : period ≠ "monthly" := fun h => hnot (by simp [h])
    constructor <;> simp [period_summary, h1, h2, h3]
  · intro hmem
    have hcases : period = "daily" ∨ period = "weekly" ∨ period = "monthly" := by
      simpa using hmem
    rcases hcases with rfl | rfl | rfl
    · have hps : period_summary remote cache s "daily" today weekMonday =
          period_summary_from remote cache s "daily" today := by
        simp [period_summary]
      rw [hps]
      exact period_summary_from_ok remote cache s "daily" today
    · have hps : period_summary remote cache s "weekly" today weekMonday =
          period_summary_from remote cache s "weekly" weekMonday := by
        simp [period_summary, show ("weekly" : String) ≠ "daily" by decide]
      rw [hps]
      exact period_summary_from_ok remote cache s "weekly" weekMonday
    · have hps : period_summary remote cache s "monthly" today weekMonday =
          period_summary_from remote cache s "monthly" (monthStart today) := by
        simp [period_summary, show ("monthly" : String) ≠ "daily" by decide,
          show ("monthly" : String) ≠ "weekly" by decide]
      rw [hps]
      exact period_summary_from_ok remote cache s "monthly" (monthStart today)

/-- Witness for C9: the period string "yearly" is rejected with the
ValueError message and an untouched cache, while "daily" succeeds. -/
theorem period_summary_period_validation_witness :
    ("yearly" ∉ (["daily", "weekly", "monthly"] : List String) ∧
      (period_summary remote_down [] demoLedger2 "yearly" ⟨2026, 10, 12⟩ ⟨2026, 10, 12⟩).1 =
        Except.error "period must be daily/weekly/monthly" ∧
      (period_summary remote_down [] demoLedger2 "yearly" ⟨2026, 10, 12⟩ ⟨2026, 10, 12⟩).2 =
        ([] : Cache)) ∧
    ("daily" ∈ (["daily", "weekly", "monthly"] : List String) ∧
      ∃ r, (period_summary remote_down [] demoLedger2 "daily" ⟨2026, 10, 12⟩
        ⟨2026, 10, 12⟩).1 = Except.ok r) :=
  ⟨⟨by decide,
    (period_summary_period_validation remote_down [] demoLedger2 ⟨2026, 10, 12⟩ ⟨2026, 10, 12⟩
      "yearly").1 (by decide)⟩,
   ⟨by decide,
    (period_summary_period_validation remote_down [] demoLedger2 ⟨2026, 10, 12⟩ ⟨2026, 10, 12⟩
      "daily").2 (by decide)⟩⟩
